import Mathlib

/-!
Shallow embedding of the order-book synchronization engine of
`gdax-bookmap` (the Binance and Bitstamp websocket feed clients and the
snapshot/diff codec), together with theorems settling the specification
claims about it.

Conventions:
* Go `uint64` values (sequence numbers) are modelled as `Nat`, with the
  wraparound `% 2^64` written explicitly where the Go code performs
  arithmetic that can overflow (`seq + 1`).
* Go `float64` prices and sizes are carried as their 64-bit IEEE-754 bit
  patterns (a `Nat`): the codec only ever copies their bytes to the wire
  (`binary.Write(buf, binary.LittleEndian, f)` writes the 8 bytes of the
  bit pattern, little-endian), so no floating-point arithmetic is needed.
  The Go float literal `0` has bit pattern `0`.
* Go `error` returns are modelled as `Except String Unit`; the error
  strings carry the fixed text of the corresponding `fmt.Errorf` format
  string (the interpolated numeric arguments are dropped).
-/

namespace GdaxBookmap

/-- Number of values of a Go `uint64`; `x % U64` is the explicit wraparound. -/
def U64 : Nat := 2 ^ 64

/-- One price level: `price` and `size` are the 64-bit IEEE-754 bit
patterns of the Go `float64` fields of `orderbook.BookLevel`. -/
structure Level where
  price : Nat
  size : Nat
deriving DecidableEq, Repr

/-- The pending-diff accumulator `orderbook.BookLevelDiff` (fields `Bid`
and `Ask`), as consumed by `PackDiff` and `Client.WriteDiff`. -/
structure BookLevelDiff where
  bid : List Level
  ask : List Level
deriving DecidableEq, Repr

/-- The parts of `orderbook.Book` the claims are about: `Sequence`,
`Synced`, the two price-level tables, and the pending diff.  The extra
flag `resyncRequested` records that `Client.SyncBook` was invoked (a
fresh full-snapshot fetch was requested); the fetch itself is an external
effect. -/
structure Book where
  sequence : Nat
  synced : Bool
  bid : List Level
  ask : List Level
  diff : BookLevelDiff
  resyncRequested : Bool
deriving DecidableEq, Repr

/-- Insert a level into a table sorted descending by price (bid side).
Modelled from the spec: `orderbook.Book`'s level tables are not under
`src/`; §3 orders bid levels descending by price with price as the
uniqueness key (callers remove any existing entry at the price first). -/
def insertBid : List Level → Level → List Level
  | [], l => [l]
  | x :: xs, l => if x.price ≤ l.price then l :: x :: xs else x :: insertBid xs l

/-- Insert a level into a table sorted ascending by price (ask side).
Modelled from the spec: §3 orders ask levels ascending by price. -/
def insertAsk : List Level → Level → List Level
  | [], l => [l]
  | x :: xs, l => if l.price ≤ x.price then l :: x :: xs else x :: insertAsk xs l

/-- Upsert-or-remove in a price-level table.  Modelled from the spec:
`applyLevelUpdate` (§4.1) upserts, or removes when `size == 0`, the entry
at `price`. -/
def setLevel (ins : List Level → Level → List Level)
    (tbl : List Level) (p s : Nat) : List Level :=
  let tbl := tbl.filter fun l => l.price ≠ p
  if s = 0 then tbl else ins tbl ⟨p, s⟩

/-- Record an entry in one side of the pending diff, last-write-wins per
price.  Modelled from the spec: §3 `pendingDiff` keeps the entries touched
since the last checkpoint, including `size == 0` removals, overwriting any
prior pending entry at that price (§4.1). -/
def diffPut (ins : List Level → Level → List Level)
    (d : List Level) (p s : Nat) : List Level :=
  ins (d.filter fun l => l.price ≠ p) ⟨p, s⟩

/-- `orderbook.Book.UpdateBidLevel`.  Modelled from the spec: the
`orderbook` package is not under `src/`; §4.1 `applyLevelUpdate(side,
price, size)` upserts or removes the level and records the same entry in
the pending diff. -/
def UpdateBidLevel (b : Book) (p s : Nat) : Book :=
  { b with bid := setLevel insertBid b.bid p s,
           diff := { b.diff with bid := diffPut insertBid b.diff.bid p s } }

/-- `orderbook.Book.UpdateAskLevel`; see `UpdateBidLevel`. -/
def UpdateAskLevel (b : Book) (p s : Nat) : Book :=
  { b with ask := setLevel insertAsk b.ask p s,
           diff := { b.diff with ask := diffPut insertAsk b.diff.ask p s } }

/-- Apply a list of `(price, size)` bid changes in order, as the
`depthUpdate` loop of `Client.HandleMessage` does. -/
def applyBidLevels (b : Book) (bids : List (Nat × Nat)) : Book :=
  bids.foldl (fun bk pr => UpdateBidLevel bk pr.1 pr.2) b

/-- Apply a list of `(price, size)` ask changes in order. -/
def applyAskLevels (b : Book) (asks : List (Nat × Nat)) : Book :=
  asks.foldl (fun bk pr => UpdateAskLevel bk pr.1 pr.2) b

/-- `orderbook.Book.ResetDiff`.  Modelled from the spec: resets the
pending diff to empty after a snapshot or diff record is emitted (§4.5). -/
def ResetDiff (b : Book) : Book :=
  { b with diff := ⟨[], []⟩ }

/-- `orderbook.Book.FixBookLevels`.  Modelled from the spec: the function
is not under `src/`; §3's invariant requires zero-size tombstones to be
purged before any snapshot or diff is serialized, and both `WriteDiff`
and `WriteSync` call it immediately before serializing. -/
def FixBookLevels (b : Book) : Book :=
  { b with bid := b.bid.filter fun l => l.size ≠ 0,
           ask := b.ask.filter fun l => l.size ≠ 0 }

namespace Binance

/-- `Client.SyncBook` for the Binance client.  Modelled from the spec: the
function is not under `src/`; §7 (GapDetected) says a resync request marks
the book unsynced and triggers a fresh full-snapshot fetch (an external
collaborator); the fetch is recorded as `resyncRequested := true` and no
other field is touched. -/
def SyncBook (b : Book) : Book :=
  { b with synced := false, resyncRequested := true }

/-- `Client.UpdateSync` of the Binance websocket client (range-continuity
policy), translated line by line: `seq := book.Sequence`; `next := seq+1`
(uint64 wraparound); stale check; synced-gap check (which calls `SyncBook`
and returns early); unsynced straddle check; finally
`book.Sequence = last`. -/
def UpdateSync (b : Book) (first last : Nat) : Except String Unit × Book :=
  let seq := b.sequence
  let next := (seq + 1) % U64
  if first ≤ seq then
    (Except.error "Ignore old messages", b)
  else if b.synced then
    if first ≠ next then
      (Except.error "Message lost, resync", SyncBook b)
    else
      (Except.ok (), { b with sequence := last })
  else if first ≤ next ∧ next ≤ last then
    (Except.ok (), { b with synced := true, sequence := last })
  else
    (Except.ok (), { b with sequence := last })

/-- The `depthUpdate` arm of `Client.HandleMessage`: run `UpdateSync`; on
error the message is dropped (no level update is applied); on success the
bid and ask changes are applied in order. -/
def HandleDepthUpdate (b : Book) (first last : Nat)
    (bids asks : List (Nat × Nat)) : Book :=
  match UpdateSync b first last with
  | (Except.error _, b2) => b2
  | (Except.ok _, b2) => applyAskLevels (applyBidLevels b2 bids) asks

end Binance

namespace Bitstamp

/-- `Client.UpdateSync` of the Bitstamp websocket client
(monotonic-timestamp policy): stale if `last < seq`, otherwise
`book.Sequence = last`. -/
def UpdateSync (b : Book) (last : Nat) : Except String Unit × Book :=
  let seq := b.sequence
  if last < seq then
    (Except.error "Ignore old messages", b)
  else
    (Except.ok (), { b with sequence := last })

end Bitstamp

/-! ### Snapshot/Diff codec (binance/websocket/pack.go) -/

/-- The `db_orderbook.SyncPacket` tag value.  Modelled from the spec: the
packet-type enumeration lives in the `orderbook` package, not under
`src/`; §6 specifies a 1-byte-or-wider tag with an implementation-defined
value space of at least `{Sync, Diff, Trade}`; one byte and distinct small
values are used here. -/
def SyncPacket : Nat := 1

/-- The `db_orderbook.DiffPacket` tag value; see `SyncPacket`. -/
def DiffPacket : Nat := 2

/-- The 8 little-endian bytes `binary.Write(buf, binary.LittleEndian, v)`
appends for a `uint64` (and, applied to a `float64` bit pattern, for a
`float64`). -/
def u64le (n : Nat) : List Nat :=
  [n % 256, n / 2 ^ 8 % 256, n / 2 ^ 16 % 256, n / 2 ^ 24 % 256,
   n / 2 ^ 32 % 256, n / 2 ^ 40 % 256, n / 2 ^ 48 % 256, n / 2 ^ 56 % 256]

/-- One `binary.Write` of a `uint8` onto a `bytes.Buffer`. -/
def writeU8 (buf : List Nat) (v : Nat) : List Nat :=
  buf ++ [v % 256]

/-- One `binary.Write` of a `uint64` (or a `float64` carried as its bit
pattern) onto a `bytes.Buffer`. -/
def writeU64 (buf : List Nat) (v : Nat) : List Nat :=
  buf ++ u64le v

/-- The count-then-levels block both `PackSync` and `PackDiff` emit for
one side: `binary.Write` of `uint64(len(levels))`, then for each level a
`binary.Write` of its price and one of its size. -/
def writeLevels (buf : List Nat) (ls : List Level) : List Nat :=
  ls.foldl (fun acc l => writeU64 (writeU64 acc l.price) l.size)
    (writeU64 buf ls.length)

/-- `PackSync` (pack.go): tag, `uint64(book.Sequence)`, then the bid and
ask level blocks of the book. -/
def PackSync (b : Book) : List Nat :=
  writeLevels (writeLevels (writeU64 (writeU8 [] SyncPacket) b.sequence) b.bid) b.ask

/-- `PackDiff` (pack.go): tag, then `uint64(first)` written twice (the
`// sequence` and `// first` lines), `uint64(last)`, then the bid and ask
blocks of the diff. -/
def PackDiff (first last : Nat) (d : BookLevelDiff) : List Nat :=
  writeLevels
    (writeLevels
      (writeU64 (writeU64 (writeU64 (writeU8 [] DiffPacket) first) first) last)
      d.bid)
    d.ask

/-! ### Batch writer (util.BookBatchWrite and the write phase of
`Client.HandleMessage`) -/

/-- `util.BookBatchWrite`.  Modelled from the spec: the `util` package is
not under `src/`; §3 `BatchState` carries `count`, the ordered pending
chunks, `lastSyncTime`, `lastDiffTime` and `lastDiffSequence`
(`LastDiffSeq` in the source).  Times are abstract instants (`Nat`). -/
structure BookBatchWrite where
  count : Nat
  batch : List (List Nat)
  lastSync : Nat
  lastDiff : Nat
  lastDiffSeq : Nat
deriving DecidableEq, Repr

/-- `BookBatchWrite.Write`.  Modelled from the spec: §6's batch flush
interface has append semantics preserving order within a routing key; the
record is appended to the pending chunks and the count incremented (the
store handle and routing key do not affect the claims). -/
def Write (s : BookBatchWrite) (pkt : List Nat) : BookBatchWrite :=
  { s with count := s.count + 1, batch := s.batch ++ [pkt] }

/-- `BookBatchWrite.NextSync`.  Modelled from the spec: `shouldSnapshot(now)`
is true when the elapsed time since `lastSyncTime` exceeds the configured
snapshot interval, and taking a snapshot sets `lastSyncTime = now` (§4.5). -/
def NextSync (s : BookBatchWrite) (now interval : Nat) : Bool × BookBatchWrite :=
  if s.lastSync + interval < now then (true, { s with lastSync := now })
  else (false, s)

/-- `BookBatchWrite.NextDiff`.  Modelled from the spec: `shouldDiff(now)`
is true when the elapsed time since `lastDiffTime` exceeds the configured
diff interval, setting `lastDiffTime = now` when it fires (§4.5). -/
def NextDiff (s : BookBatchWrite) (now interval : Nat) : Bool × BookBatchWrite :=
  if s.lastDiff + interval < now then (true, { s with lastDiff := now })
  else (false, s)

/-- `Client.WriteDiff` (identical in the Binance and Bitstamp clients):
`FixBookLevels`; if the pending diff has at least one bid or ask entry,
pack it over `[batch.LastDiffSeq, book.Sequence]`, append the record,
reset the diff and set `LastDiffSeq = book.Sequence + 1`; otherwise do
nothing. -/
def WriteDiff (batch : BookBatchWrite) (b : Book) :
    BookBatchWrite × Book :=
  let b := FixBookLevels b
  if b.diff.bid.length ≠ 0 ∨ b.diff.ask.length ≠ 0 then
    let pkt := PackDiff batch.lastDiffSeq b.sequence b.diff
    let batch := Write batch pkt
    let b := ResetDiff b
    ({ batch with lastDiffSeq := (b.sequence + 1) % U64 }, b)
  else
    (batch, b)

/-- `Client.WriteSync` (identical in both clients): `FixBookLevels`;
unconditionally append the packed snapshot, reset the diff and set
`LastDiffSeq = book.Sequence + 1`. -/
def WriteSync (batch : BookBatchWrite) (b : Book) :
    BookBatchWrite × Book :=
  let b := FixBookLevels b
  let batch := Write batch (PackSync b)
  let b := ResetDiff b
  ({ batch with lastDiffSeq := (b.sequence + 1) % U64 }, b)

/-- The persistence tail of `Client.HandleMessage` on a processed event:
`if batch.NextSync(now) { WriteSync } else { if batch.NextDiff(now)
{ WriteDiff } }`.  `NextDiff` is evaluated (and may stamp `lastDiff`)
only on the else branch. -/
def WritePhase (batch : BookBatchWrite) (b : Book)
    (now syncInterval diffInterval : Nat) : BookBatchWrite × Book :=
  let sres := NextSync batch now syncInterval
  if sres.1 then
    WriteSync sres.2 b
  else
    let dres := NextDiff sres.2 now diffInterval
    if dres.1 then WriteDiff dres.2 b else (dres.2, b)

/-! ### Flattening lemmas for the codec -/

/-- The bytes of a list of levels without the leading count: for each
level its price bytes then its size bytes. -/
def levelBytes (ls : List Level) : List Nat :=
  ls.foldr (fun l acc => u64le l.price ++ u64le l.size ++ acc) []

/-- The level-writing loop only ever appends to the buffer. -/
theorem foldlWrite_eq (ls : List Level) : ∀ (init : List Nat),
    ls.foldl (fun acc l => writeU64 (writeU64 acc l.price) l.size) init
      = init ++ levelBytes ls := by
  induction ls with
  | nil =>
      intro init
      simp [levelBytes]
  | cons x xs ih =>
      intro init
      simp only [List.foldl_cons]
      rw [ih]
      simp [levelBytes, writeU64, List.append_assoc]

/-- `writeLevels` appends the count then the level bytes. -/
theorem writeLevels_eq (buf : List Nat) (ls : List Level) :
    writeLevels buf ls = buf ++ u64le ls.length ++ levelBytes ls := by
  unfold writeLevels
  rw [foldlWrite_eq]
  simp [writeU64, List.append_assoc]

/-- Taking 8 bytes at the front of an appended 8-byte field yields the
field. -/
theorem take8_append (l r : List Nat) (h : l.length = 8) :
    (l ++ r).take 8 = l := by
  rw [← h]
  exact List.take_left l r

/-- Dropping an 8-byte field at the front of an append yields the rest. -/
theorem drop8_append (l r : List Nat) (h : l.length = 8) :
    (l ++ r).drop 8 = r := by
  rw [← h]
  exact List.drop_left l r

/-! ### Concrete states used by counterexamples and witnesses -/

/-- A synced book at sequence 5 with empty tables. -/
def bSynced5 : Book := ⟨5, true, [], [], ⟨[], []⟩, false⟩

/-- An unsynced book at sequence 5 with empty tables. -/
def bUnsynced5 : Book := ⟨5, false, [], [], ⟨[], []⟩, false⟩

/-- A synced book at sequence 100 (the monotonic-policy example of §8). -/
def bBook100 : Book := ⟨100, true, [], [], ⟨[], []⟩, false⟩

/-! ### C1 -/

/-- C1 counterexample: a synced book at sequence 5 given the range
`[8, 9]` gets the ResyncRequired verdict (`first > S`, so not Stale), yet
its sequence does not advance to `candidateLast = 9` — `UpdateSync`
returns before `book.Sequence = last`. -/
theorem c1_resync_does_not_advance :
    bSynced5.sequence < 8 ∧
    (Binance.UpdateSync bSynced5 8 9).2.sequence ≠ 9 := by
  exact ⟨by decide, by decide⟩

/-- C1 (amended): under the range-continuity policy with `first > S`, the
sequence advances to `last` on Accept verdicts (the book unsynced, or
synced with `first = next`); on the ResyncRequired verdict (synced and
`first ≠ next`) the sequence is left at `S` and a resync is triggered
instead. -/
theorem binance_nonstale_advance (b : Book) (first last : Nat)
    (hfresh : b.sequence < first) :
    ((b.synced = true → first = (b.sequence + 1) % U64) →
      (Binance.UpdateSync b first last).2.sequence = last) ∧
    (b.synced = true → first ≠ (b.sequence + 1) % U64 →
      (Binance.UpdateSync b first last).1 = Except.error "Message lost, resync" ∧
      (Binance.UpdateSync b first last).2.sequence = b.sequence ∧
      (Binance.UpdateSync b first last).2.resyncRequested = true) := by
  constructor
  · intro hok
    by_cases hs : b.synced = true
    · have hf := hok hs
      subst hf
      simp [Binance.UpdateSync, Nat.not_le.mpr hfresh, hs]
    · by_cases hc : first ≤ (b.sequence + 1) % U64 ∧ (b.sequence + 1) % U64 ≤ last
      · simp [Binance.UpdateSync, Nat.not_le.mpr hfresh, hs, hc]
      · simp [Binance.UpdateSync, Nat.not_le.mpr hfresh, hs, hc]
  · intro hs hne
    simp [Binance.UpdateSync, Binance.SyncBook, Nat.not_le.mpr hfresh, hs, hne]

/-- C1 witness: the amended theorem at concrete inputs — a synced book at
sequence 5 accepts `[6, 9]` and advances to 9, while `[8, 9]` triggers a
resync with the sequence left at 5. -/
theorem c1_witness :
    (Binance.UpdateSync bSynced5 6 9).2.sequence = 9 ∧
    ((Binance.UpdateSync bSynced5 8 9).1 = Except.error "Message lost, resync" ∧
     (Binance.UpdateSync bSynced5 8 9).2.sequence = bSynced5.sequence ∧
     (Binance.UpdateSync bSynced5 8 9).2.resyncRequested = true) :=
  ⟨(binance_nonstale_advance bSynced5 6 9 (by decide)).1 (fun _ => by decide),
   (binance_nonstale_advance bSynced5 8 9 (by decide)).2 rfl (by decide)⟩

/-! ### C2 -/

/-- C2 counterexample: an unsynced book at sequence 5 given `[8, 9]`
(`first > S`, straddle condition `first ≤ next ≤ last` false) does NOT
get the Stale verdict: `UpdateSync` returns nil (ok), mutates the book,
and advances its sequence to 9. -/
theorem c2_unsynced_not_stale :
    bUnsynced5.synced = false ∧
    bUnsynced5.sequence < 8 ∧
    ¬ (8 ≤ (bUnsynced5.sequence + 1) % U64 ∧ (bUnsynced5.sequence + 1) % U64 ≤ 9) ∧
    (Binance.UpdateSync bUnsynced5 8 9).1 = Except.ok () ∧
    (Binance.UpdateSync bUnsynced5 8 9).2.sequence = 9 ∧
    (Binance.UpdateSync bUnsynced5 8 9).2 ≠ bUnsynced5 := by
  refine ⟨rfl, by decide, by decide, rfl, rfl, by decide⟩

/-- C2 (amended): for an unsynced book with `first > S`, the verdict is
Accept in every case — no error is returned and the sequence advances to
`last`; the book is additionally marked synced exactly when
`first ≤ next ≤ last`. -/
theorem binance_unsynced_accepts (b : Book) (first last : Nat)
    (hb : b.synced = false) (hfresh : b.sequence < first) :
    (Binance.UpdateSync b first last).1 = Except.ok () ∧
    (Binance.UpdateSync b first last).2.sequence = last ∧
    ((Binance.UpdateSync b first last).2.synced = true ↔
      (first ≤ (b.sequence + 1) % U64 ∧ (b.sequence + 1) % U64 ≤ last)) := by
  by_cases hc : first ≤ (b.sequence + 1) % U64 ∧ (b.sequence + 1) % U64 ≤ last
  all_goals simp [Binance.UpdateSync, hb, hc, Nat.not_le.mpr hfresh]

/-- C2 witness: an unsynced book at sequence 5 given the straddling range
`[6, 8]` — Accept, sequence 8, and the synced flag set iff the straddle
condition holds (it does here). -/
theorem c2_witness :
    (Binance.UpdateSync bUnsynced5 6 8).1 = Except.ok () ∧
    (Binance.UpdateSync bUnsynced5 6 8).2.sequence = 8 ∧
    ((Binance.UpdateSync bUnsynced5 6 8).2.synced = true ↔
      (6 ≤ (bUnsynced5.sequence + 1) % U64 ∧ (bUnsynced5.sequence + 1) % U64 ≤ 8)) :=
  binance_unsynced_accepts bUnsynced5 6 8 rfl (by decide)

/-! ### C3 -/

/-- C3: on a synced book with `first > S` and `first ≠ next`, the verdict
is ResyncRequired: `SyncBook` is invoked (book marked unsynced, a fresh
snapshot fetch requested), the error return makes `HandleMessage` drop
the message, so no level update is applied and the sequence and tables
are unchanged. -/
theorem binance_gap_resync (b : Book) (first last : Nat)
    (bids asks : List (Nat × Nat))
    (hs : b.synced = true) (hfresh : b.sequence < first)
    (hgap : first ≠ (b.sequence + 1) % U64) :
    (Binance.UpdateSync b first last).1 = Except.error "Message lost, resync" ∧
    (Binance.UpdateSync b first last).2 = Binance.SyncBook b ∧
    (Binance.SyncBook b).synced = false ∧
    (Binance.SyncBook b).resyncRequested = true ∧
    (Binance.SyncBook b).sequence = b.sequence ∧
    (Binance.SyncBook b).bid = b.bid ∧
    (Binance.SyncBook b).ask = b.ask ∧
    (Binance.SyncBook b).diff = b.diff ∧
    Binance.HandleDepthUpdate b first last bids asks = Binance.SyncBook b := by
  simp [Binance.UpdateSync, Binance.HandleDepthUpdate, Binance.SyncBook,
        hs, hgap, Nat.not_le.mpr hfresh]

/-- C3 witness: the gap theorem at a synced book at sequence 5 given
`[8, 9]` with a pending bid change that is consequently never applied. -/
theorem c3_witness :
    (Binance.UpdateSync bSynced5 8 9).1 = Except.error "Message lost, resync" ∧
    (Binance.UpdateSync bSynced5 8 9).2 = Binance.SyncBook bSynced5 ∧
    (Binance.SyncBook bSynced5).synced = false ∧
    (Binance.SyncBook bSynced5).resyncRequested = true ∧
    (Binance.SyncBook bSynced5).sequence = bSynced5.sequence ∧
    (Binance.SyncBook bSynced5).bid = bSynced5.bid ∧
    (Binance.SyncBook bSynced5).ask = bSynced5.ask ∧
    (Binance.SyncBook bSynced5).diff = bSynced5.diff ∧
    Binance.HandleDepthUpdate bSynced5 8 9 [(100, 3)] [] = Binance.SyncBook bSynced5 :=
  binance_gap_resync bSynced5 8 9 [(100, 3)] [] rfl (by decide) (by decide)

/-! ### C4 -/

/-- C4: whenever `first ≤ S` the verdict is Stale — an error is returned
(so `HandleMessage` drops the message without applying any level update),
and the book, in particular its sequence and synced flag, is entirely
unchanged; the condition only produces a recoverable error value, never a
crash. -/
theorem binance_stale_drop (b : Book) (first last : Nat)
    (bids asks : List (Nat × Nat)) (hold : first ≤ b.sequence) :
    (Binance.UpdateSync b first last).1 = Except.error "Ignore old messages" ∧
    (Binance.UpdateSync b first last).2 = b ∧
    Binance.HandleDepthUpdate b first last bids asks = b := by
  simp [Binance.UpdateSync, Binance.HandleDepthUpdate, hold]

/-- C4 witness: the stale theorem at a synced book at sequence 5 given
the entirely-old range `[0, 4]` with pending changes on both sides. -/
theorem c4_witness :
    (Binance.UpdateSync bSynced5 0 4).1 = Except.error "Ignore old messages" ∧
    (Binance.UpdateSync bSynced5 0 4).2 = bSynced5 ∧
    Binance.HandleDepthUpdate bSynced5 0 4 [(100, 3)] [(101, 2)] = bSynced5 :=
  binance_stale_drop bSynced5 0 4 [(100, 3)] [(101, 2)] (by decide)

/-! ### C5 -/

/-- C5: the monotonic-timestamp policy of the Bitstamp client — if
`last < S` the verdict is Stale (error returned, book unchanged);
otherwise, including `last = S`, the verdict is Accept and the sequence
advances to `last`. -/
theorem bitstamp_monotonic (b : Book) (last : Nat) :
    (last < b.sequence →
      (Bitstamp.UpdateSync b last).1 = Except.error "Ignore old messages" ∧
      (Bitstamp.UpdateSync b last).2 = b) ∧
    (b.sequence ≤ last →
      (Bitstamp.UpdateSync b last).1 = Except.ok () ∧
      (Bitstamp.UpdateSync b last).2 = { b with sequence := last }) := by
  constructor
  · intro h
    simp [Bitstamp.UpdateSync, h]
  · intro h
    simp [Bitstamp.UpdateSync, Nat.not_lt.mpr h]

/-- C5 witness: §8's example — at current sequence 100, `last = 99`
yields Stale with the book unchanged, and `last = 150` yields Accept
advancing the sequence to 150. -/
theorem c5_witness :
    ((Bitstamp.UpdateSync bBook100 99).1 = Except.error "Ignore old messages" ∧
     (Bitstamp.UpdateSync bBook100 99).2 = bBook100) ∧
    ((Bitstamp.UpdateSync bBook100 150).1 = Except.ok () ∧
     (Bitstamp.UpdateSync bBook100 150).2 = { bBook100 with sequence := 150 }) :=
  ⟨(bitstamp_monotonic bBook100 99).1 (by decide),
   (bitstamp_monotonic bBook100 150).2 (by decide)⟩

/-! ### C6 -/

/-- C6: the encoded Diff record is, in order, the Diff tag byte, a u64
equal to `first`, a u64 equal to `first` again, a u64 equal to `last`,
then the bid count and bid levels and the ask count and ask levels, each
field 8 bytes little-endian; in particular the two u64 fields following
the tag (byte offsets 1–8 and 9–16) are always equal. -/
theorem packDiff_layout (first last : Nat) (d : BookLevelDiff) :
    PackDiff first last d =
      [DiffPacket] ++ u64le first ++ u64le first ++ u64le last ++
        u64le d.bid.length ++ levelBytes d.bid ++
        u64le d.ask.length ++ levelBytes d.ask ∧
    ((PackDiff first last d).drop 1).take 8 = u64le first ∧
    ((PackDiff first last d).drop 9).take 8 = u64le first ∧
    ((PackDiff first last d).drop 17).take 8 = u64le last ∧
    ((PackDiff first last d).drop 1).take 8 = ((PackDiff first last d).drop 9).take 8 := by
  have hflat : PackDiff first last d =
      [DiffPacket] ++ (u64le first ++ (u64le first ++ (u64le last ++
        (u64le d.bid.length ++ (levelBytes d.bid ++
          (u64le d.ask.length ++ levelBytes d.ask)))))) := by
    simp [PackDiff, writeLevels_eq, writeU64, writeU8, DiffPacket, List.append_assoc]
  have h1 : (PackDiff first last d).drop 1 =
      u64le first ++ (u64le first ++ (u64le last ++
        (u64le d.bid.length ++ (levelBytes d.bid ++
          (u64le d.ask.length ++ levelBytes d.ask))))) := by
    rw [hflat]
    rfl
  have h9 : (PackDiff first last d).drop 9 =
      u64le first ++ (u64le last ++
        (u64le d.bid.length ++ (levelBytes d.bid ++
          (u64le d.ask.length ++ levelBytes d.ask)))) := by
    have e := List.drop_drop 8 1 (PackDiff first last d)
    rw [h1, drop8_append (u64le first) _ rfl] at e
    exact e.symm
  have h17 : (PackDiff first last d).drop 17 =
      u64le last ++
        (u64le d.bid.length ++ (levelBytes d.bid ++
          (u64le d.ask.length ++ levelBytes d.ask))) := by
    have e := List.drop_drop 8 9 (PackDiff first last d)
    rw [h9, drop8_append (u64le first) _ rfl] at e
    exact e.symm
  have s1 : ((PackDiff first last d).drop 1).take 8 = u64le first := by
    rw [h1]
    exact take8_append _ _ rfl
  have s9 : ((PackDiff first last d).drop 9).take 8 = u64le first := by
    rw [h9]
    exact take8_append _ _ rfl
  have s17 : ((PackDiff first last d).drop 17).take 8 = u64le last := by
    rw [h17]
    exact take8_append _ _ rfl
  refine ⟨?_, s1, s9, s17, s1.trans s9.symm⟩
  rw [hflat]
  simp [List.append_assoc]

/-! ### C7 -/

/-- An empty batch at `lastDiffSeq = 3` with both timers at 0. -/
def batch0 : BookBatchWrite := ⟨0, [], 0, 0, 3⟩

/-- A synced book at sequence 5 with one pending bid diff entry. -/
def bDiffOne : Book := ⟨5, true, [], [], ⟨[⟨10, 2⟩], []⟩, false⟩

/-- C7: `WriteDiff` writes a Diff record (changes the pending chunks)
only when the pending diff has at least one bid or ask entry; this holds
for every state, so in particular for every reachable state of the batch
writer. -/
theorem writeDiff_writes_only_nonempty (batch : BookBatchWrite) (b : Book)
    (h : (WriteDiff batch b).1.batch ≠ batch.batch) :
    b.diff.bid ≠ [] ∨ b.diff.ask ≠ [] := by
  by_contra hc
  push_neg at hc
  obtain ⟨h1, h2⟩ := hc
  apply h
  simp [WriteDiff, FixBookLevels, h1, h2]

/-- C7 witness: with one pending bid entry a record is written, and the
theorem recovers that the pending set was non-empty. -/
theorem c7_witness :
    (WriteDiff batch0 bDiffOne).1.batch ≠ batch0.batch ∧
    (bDiffOne.diff.bid ≠ [] ∨ bDiffOne.diff.ask ≠ []) :=
  ⟨by decide, writeDiff_writes_only_nonempty batch0 bDiffOne (by decide)⟩

/-! ### C8 -/

/-- C8: when the snapshot trigger fires on a processed event, the write
phase takes exactly the snapshot path: the packed snapshot of the purged
book is appended, the pending diff is reset, `lastDiffSeq` becomes
`book.sequence + 1`, `lastSync` is stamped to `now` — and the diff
trigger is not evaluated, so `lastDiff` keeps its previous value no
matter how overdue a diff is. -/
theorem writePhase_snapshot (batch : BookBatchWrite) (b : Book)
    (now syncI diffI : Nat) (h : batch.lastSync + syncI < now) :
    WritePhase batch b now syncI diffI =
      ({ count := batch.count + 1,
         batch := batch.batch ++ [PackSync (FixBookLevels b)],
         lastSync := now,
         lastDiff := batch.lastDiff,
         lastDiffSeq := (b.sequence + 1) % U64 },
       ResetDiff (FixBookLevels b)) ∧
    (WritePhase batch b now syncI diffI).1.lastDiff = batch.lastDiff := by
  constructor
  · simp [WritePhase, NextSync, WriteSync, Write, ResetDiff, FixBookLevels, h]
  · simp [WritePhase, NextSync, WriteSync, Write, ResetDiff, FixBookLevels, h]

/-- C8 witness: the snapshot theorem with the snapshot interval (10)
exceeded at `now = 100` and a diff interval (1) that is also long
overdue, showing `lastDiff` still unchanged. -/
theorem c8_witness :
    WritePhase batch0 bDiffOne 100 10 1 =
      ({ count := batch0.count + 1,
         batch := batch0.batch ++ [PackSync (FixBookLevels bDiffOne)],
         lastSync := 100,
         lastDiff := batch0.lastDiff,
         lastDiffSeq := (bDiffOne.sequence + 1) % U64 },
       ResetDiff (FixBookLevels bDiffOne)) ∧
    (WritePhase batch0 bDiffOne 100 10 1).1.lastDiff = batch0.lastDiff :=
  writePhase_snapshot batch0 bDiffOne 100 10 1 (by decide)

/-! ### C9 -/

/-- A synced book at sequence 5 with live levels on both sides, no
zero-size tombstones, and an empty pending diff. -/
def bClean : Book := ⟨5, true, [⟨10, 2⟩], [⟨11, 3⟩], ⟨[], []⟩, false⟩

/-- C9: calling `WriteDiff` when both sides of the pending diff are empty
changes nothing at all — no record is written, the pending diff is not
reset, `lastDiffSeq` keeps its previous value, and the book (which, per
§3's invariant, carries no zero-size tombstones in its level tables) is
returned unchanged. -/
theorem writeDiff_empty_noop (batch : BookBatchWrite) (b : Book)
    (hbid : b.diff.bid = []) (hask : b.diff.ask = [])
    (hb : ∀ l ∈ b.bid, l.size ≠ 0) (ha : ∀ l ∈ b.ask, l.size ≠ 0) :
    WriteDiff batch b = (batch, b) := by
  have h1 : b.bid.filter (fun l => l.size ≠ 0) = b.bid := by
    rw [List.filter_eq_self]
    intro a hamem
    simpa using hb a hamem
  have h2 : b.ask.filter (fun l => l.size ≠ 0) = b.ask := by
    rw [List.filter_eq_self]
    intro a hamem
    simpa using ha a hamem
  have hfix : FixBookLevels b = b := by
    unfold FixBookLevels
    rw [h1, h2]
  rw [WriteDiff, hfix]
  simp [hbid, hask]

/-- C9 witness: the no-op theorem at a tombstone-free book with one live
level per side and an empty pending diff. -/
theorem c9_witness : WriteDiff batch0 bClean = (batch0, bClean) :=
  writeDiff_empty_noop batch0 bClean rfl rfl (by decide) (by decide)

/-! ### C10 -/

/-- An unsynced book at sequence 7 with empty tables and empty pending
diff. -/
def bEmptyUnsynced : Book := ⟨7, false, [], [], ⟨[], []⟩, false⟩

/-- C10: `WriteSync` appends a packed snapshot for every state — there is
no emptiness or synced-flag guard, unlike `WriteDiff` — and when both
purged sides are empty the record is exactly the tag, the sequence, a
zero bid count and a zero ask count. -/
theorem writeSync_unconditional (batch : BookBatchWrite) (b : Book) :
    (WriteSync batch b).1.batch = batch.batch ++ [PackSync (FixBookLevels b)] ∧
    (WriteSync batch b).1.count = batch.count + 1 ∧
    ((FixBookLevels b).bid = [] → (FixBookLevels b).ask = [] →
      PackSync (FixBookLevels b) =
        [SyncPacket] ++ u64le b.sequence ++ u64le 0 ++ u64le 0) := by
  refine ⟨by simp [WriteSync, Write], by simp [WriteSync, Write], ?_⟩
  intro h1 h2
  simp only [PackSync]
  rw [h1, h2]
  simp [writeLevels, writeU64, writeU8, SyncPacket, FixBookLevels]

/-- C10 witness: the unconditional-snapshot theorem at an unsynced book
with both sides empty: the record is written and carries zero counts. -/
theorem c10_witness :
    (WriteSync batch0 bEmptyUnsynced).1.batch =
      batch0.batch ++ [PackSync (FixBookLevels bEmptyUnsynced)] ∧
    PackSync (FixBookLevels bEmptyUnsynced) =
      [SyncPacket] ++ u64le bEmptyUnsynced.sequence ++ u64le 0 ++ u64le 0 :=
  ⟨(writeSync_unconditional batch0 bEmptyUnsynced).1,
   (writeSync_unconditional batch0 bEmptyUnsynced).2.2 rfl rfl⟩

end GdaxBookmap
